import Mathlib

/-!
# Verification of `hivesky.py`

A shallow embedding of the hivesky RSS-to-Bluesky bot, faithful to the single
source file `hivesky.py`:

* strings are Lean `String`s; the Python substring test `p in s` is embedded as
  an explicit character-list search;
* the parsed `published` timestamp of a feed entry is embedded as an `Int`
  (seconds since the Unix epoch of the instant denoted by the RFC-822 date);
  Python compares timezone-aware `datetime` values by instant;
* the external effects (the Browserless fetch, the Bluesky publish, stdout, the
  `history.csv` file) are embedded as explicit data: fetch and publish outcomes
  are oracles in a `RunConfig`, the history file is an
  `Option (List HistoryRecord)` (`none` = file absent), and the observable
  side effects of a run are logged as an `Event` trace;
* an uncaught Python exception aborts the run: the run result is either
  `ok` or `crashed` with the exception that escaped.
-/

/-- Python `s2 in s1` on strings: `startsWithL n h` is `h.startswith(n)` on
character lists. -/
def startsWithL : List Char → List Char → Bool
  | [], _ => true
  | _ :: _, [] => false
  | a :: as, b :: bs => a == b && startsWithL as bs

/-- `hasSubL n h` decides whether `n` occurs contiguously in `h`. -/
def hasSubL (need : List Char) : List Char → Bool
  | [] => need.isEmpty
  | c :: cs => startsWithL need (c :: cs) || hasSubL need cs

/-- Python `need in hay` for strings. -/
def containsSub (hay need : String) : Bool :=
  hasSubL need.data hay.data

/-- Python `s.strip()`: drop leading and trailing whitespace. -/
def pyStrip (s : String) : String :=
  ⟨((s.data.dropWhile Char.isWhitespace).reverse.dropWhile Char.isWhitespace).reverse⟩

/-- Python `sep.join(parts)`. -/
def pyJoin (sep : String) : List String → String
  | [] => ""
  | [x] => x
  | x :: xs => x ++ sep ++ pyJoin sep xs

/-- `class PostType(Enum)` from `hivesky.py`. -/
inductive PostType where
  | RELEASE
  | SPEECH
  | FEATURE
deriving DecidableEq, Repr

/-- A feed entry as exposed by the feed decoder: `link`, `guid`, `title`, and
the already-parsed `published` instant (epoch seconds). -/
structure Entry where
  link : String
  guid : String
  title : String
  published : Int
deriving DecidableEq, Repr

/-- The fields of `class Post` that the program reads (the `ministers` field of
the Python object is never populated before use, so it is omitted). -/
structure Post where
  type : PostType
  guid : String
  url : String
  title : String
deriving DecidableEq, Repr

/-- `START_TIME`: `"05 Apr 2025 00:00:01 +1300"`, i.e. 2025-04-04T11:00:01Z,
as epoch seconds. -/
def startTime : Int := 1743764401

/-- `parse_entry` from `hivesky.py`: three sequential substring checks, each
overwriting `entry_type`; `None` when no check fires. -/
def parse_entry (entry : Entry) : Option Post :=
  let url := entry.link
  let guid := entry.guid
  let title := pyStrip entry.title
  let entry_type : Option PostType := none
  let entry_type := if containsSub url "/feature/" then some PostType.FEATURE else entry_type
  let entry_type := if containsSub url "/release/" then some PostType.RELEASE else entry_type
  let entry_type := if containsSub url "/speech/" then some PostType.SPEECH else entry_type
  match entry_type with
  | none => none
  | some ty => some ⟨ty, guid, url, title⟩

/-- `format_minister_text` from `hivesky.py`. The Python f-strings
`f'{prefix} {...}'` with `prefix = ' from'` are written with the space
inlined. -/
def format_minister_text (ministers : List String) : String :=
  if ministers.length == 0 then ""
  else if ministers.length == 1 then " from " ++ ministers.headD ""
  else if ministers.length == 2 then " from " ++ pyJoin " and " ministers
  else " from " ++ pyJoin ", " ministers.dropLast ++ " and " ++ ministers.getLastD ""

/-- The `TextBuilder` sequence of `__main__` (lines 203-219): the post body is
the concatenation of the pieces appended by the successive `tb.text` calls. -/
def compose_body (ty : PostType) (ministers : List String) : String :=
  "A new "
    ++ (if ministers.length > 1 then "joint " else "")
    ++ (if ty = PostType.RELEASE then "release" else "")
    ++ (if ty = PostType.FEATURE then "feature" else "")
    ++ (if ty = PostType.SPEECH then "speech" else "")
    ++ " is available"
    ++ (if ministers.length != 0 then format_minister_text ministers else "")
    ++ "."

/-- The category literal the spec assigns to each `PostType`. -/
def categoryWord : PostType → String
  | PostType.RELEASE => "release"
  | PostType.SPEECH => "speech"
  | PostType.FEATURE => "feature"

/-- The claim's reading of the classifier: the same three independent
substring checks, but run in the order the claim lists them —
`/release/`, `/speech/`, `/feature/` — with the last match winning.
Follows the spec's words, for comparison with `parse_entry`. -/
def classifyListedOrder (url : String) : Option PostType :=
  let t : Option PostType := none
  let t := if containsSub url "/release/" then some PostType.RELEASE else t
  let t := if containsSub url "/speech/" then some PostType.SPEECH else t
  let t := if containsSub url "/feature/" then some PostType.FEATURE else t
  t

/-- One row of `history.csv`: the two columns written by
`save_feed_history`. -/
structure HistoryRecord where
  guid : String
  url : String
deriving DecidableEq, Repr

/-- `load_feed_history`: the file contents are `none` when `history.csv` does
not exist, in which case the empty list is returned (not an error). -/
def load_feed_history (file : Option (List HistoryRecord)) : List HistoryRecord :=
  match file with
  | some rows => rows
  | none => []

/-- `save_feed_history`: appends `{guid, url}` of the post to the in-memory
history and rewrites the whole file from it. Returns the mutated in-memory
list and the file contents written. -/
def save_feed_history (history : List HistoryRecord) (post : Post) :
    List HistoryRecord × List HistoryRecord :=
  let history := history ++ [⟨post.guid, post.url⟩]
  (history, history)

/-- `retrieve_published_guids`: the `guid` column of every loaded row. -/
def retrieve_published_guids (history : List HistoryRecord) : List String :=
  history.map HistoryRecord.guid

/-- Python `==` between a `str` and a `dict` row: always `False`. The main
loop's `post.guid not in history` compares the guid string against whole CSV
rows (dicts), so the membership test never succeeds. -/
def pyEqStrRecord (_g : String) (_row : HistoryRecord) : Bool := false

/-- Python `post.guid in history` where `history` is the list of row dicts. -/
def guidInRecords (g : String) (history : List HistoryRecord) : Bool :=
  history.any (pyEqStrRecord g)

/-- Line 221: `metadata['title'] if metadata['title'] is not None else
post.title`. -/
def embedTitle (metaTitle : Option String) (postTitle : String) : String :=
  match metaTitle with
  | some t => t
  | none => postTitle

/-- Line 222: `metadata['description'] if metadata['description'] is not None
else 'Read more'`. -/
def embedDescription (metaDescription : Option String) : String :=
  match metaDescription with
  | some d => d
  | none => "Read more"

/-- The dictionary built by a run of `fetch_post_metadata` that reaches its
final `return` (the `portfolios` field is never read downstream). -/
structure PageMetadata where
  title : Option String
  description : Option String
  ministers : List String
deriving DecidableEq, Repr

/-- Outcome of the scrape underlying `fetch_post_metadata`:
* `httpError`: `r.ok` is false, so the function returns the Python value
  `False`;
* `missingAnchors`: the page lacks the `og:title` / description meta anchors,
  so `soup.find(...)` yields `None` and the `.attrs` access raises
  `AttributeError`;
* `page`: extraction succeeds with the given metadata. -/
inductive FetchResult where
  | httpError
  | missingAnchors
  | page (meta : PageMetadata)
deriving DecidableEq, Repr

/-- Python exceptions that can escape the per-entry processing. -/
inductive PyExc where
  | typeError
  | attributeError
deriving DecidableEq, Repr

/-- Observable side effects of a run, in order of occurrence. -/
inductive Event where
  | classify (guid : String)
  | fetchMeta (url : String)
  | publishAttempt (url : String)
  | publishSuccess (url : String)
  | historyAppend (guid : String)
  | dryRunPrint (url : String)
deriving DecidableEq, Repr

/-- The environment of a run: the metadata-fetch oracle, the
`POST_TO_BLUESKY` toggle, and the publish-sink oracle (`true` =
`client.send_post` succeeds for that URL). -/
structure RunConfig where
  fetch : String → FetchResult
  postToBluesky : Bool
  publishOk : String → Bool

/-- Mutable state of the main loop: the in-memory `history` list (kept in sync
with the file by `save_feed_history`) and the event trace so far. -/
structure RunState where
  history : List HistoryRecord
  events : List Event
deriving DecidableEq, Repr

/-- Result of a run: `ok` on normal completion (exit 0), `crashed` when an
uncaught Python exception aborts the process (nonzero exit), keeping the side
effects that had already happened. -/
inductive RunResult where
  | ok (st : RunState)
  | crashed (exc : PyExc) (st : RunState)
deriving DecidableEq, Repr

/-- The body of `for entry in reversed(feed.entries[3:])` (lines 192-262),
for one entry. `guids` is the snapshot computed before the loop. -/
def processEntry (cfg : RunConfig) (guids : List String) (st : RunState)
    (e : Entry) : RunResult :=
  if e.published < startTime then .ok st
  else if guids.contains e.guid then .ok st
  else
    let st1 : RunState := ⟨st.history, st.events ++ [Event.classify e.guid]⟩
    match parse_entry e with
    | none => .ok st1
    | some post =>
      if guidInRecords post.guid st1.history then .ok st1
      else
        let st2 : RunState := ⟨st1.history, st1.events ++ [Event.fetchMeta post.url]⟩
        match cfg.fetch post.url with
        | .httpError =>
          -- `metadata` is the Python value `False`; `metadata['ministers']`
          -- raises `TypeError`, which nothing catches.
          .crashed .typeError st2
        | .missingAnchors =>
          -- `soup.find(...).attrs` raises `AttributeError` inside
          -- `fetch_post_metadata`, which nothing catches.
          .crashed .attributeError st2
        | .page _ =>
          if cfg.postToBluesky then
            let st3 : RunState := ⟨st2.history, st2.events ++ [Event.publishAttempt post.url]⟩
            if cfg.publishOk post.url then
              .ok ⟨(save_feed_history st3.history post).1,
                   st3.events ++ [Event.publishSuccess post.url,
                                  Event.historyAppend post.guid]⟩
            else
              -- `except Exception: continue` — nothing saved.
              .ok st3
          else
            .ok ⟨(save_feed_history st2.history post).1,
                 st2.events ++ [Event.dryRunPrint post.url,
                                Event.historyAppend post.guid]⟩

/-- The main loop over the (already sliced and reversed) entry list; an
uncaught exception aborts the rest of the run. -/
def runLoop (cfg : RunConfig) (guids : List String) :
    RunState → List Entry → RunResult
  | st, [] => .ok st
  | st, e :: es =>
    match processEntry cfg guids st e with
    | .ok st' => runLoop cfg guids st' es
    | .crashed exc st' => .crashed exc st'

/-- `__main__` (lines 183-262): load history, snapshot the guids, then loop
over `reversed(feed.entries[3:])`. -/
def runMain (cfg : RunConfig) (entries : List Entry)
    (file : Option (List HistoryRecord)) : RunResult :=
  let history := load_feed_history file
  let guids := retrieve_published_guids history
  runLoop cfg guids ⟨history, []⟩ ((entries.drop 3).reverse)

/-- The guids passed to `parse_entry`, in order, as recorded in a trace. -/
def classifiedGuids (events : List Event) : List String :=
  events.filterMap fun ev =>
    match ev with
    | .classify g => some g
    | _ => none

/-- Starting from no `history.csv`, run `save_feed_history` once per post,
threading the in-memory history exactly as `__main__` does; the result is the
final in-memory list and the last file contents written. -/
def appendRun (posts : List Post) : List HistoryRecord × Option (List HistoryRecord) :=
  posts.foldl
    (fun acc p =>
      let r := save_feed_history acc.1 p
      (r.1, some r.2))
    (load_feed_history none, none)

/-- The row `save_feed_history` writes for a post. -/
def toRecord (p : Post) : HistoryRecord :=
  ⟨p.guid, p.url⟩

/-- The condition under which the main loop lets an entry through to
`parse_entry`: not older than `START_TIME` and not already in the guid
snapshot. -/
def passesFilters (guids : List String) (e : Entry) : Bool :=
  decide (startTime ≤ e.published) && !(guids.contains e.guid)

/-- A fixed metadata value for concrete runs. -/
def metaSample : PageMetadata :=
  ⟨some "Page title", some "Page description", ["A. Minister"]⟩

/-- An environment whose metadata fetches always return non-success HTTP
status, in live mode. -/
def cfgHttpFail : RunConfig :=
  ⟨fun _ => FetchResult.httpError, true, fun _ => true⟩

/-- An environment whose fetched pages lack the required meta anchors. -/
def cfgNoAnchors : RunConfig :=
  ⟨fun _ => FetchResult.missingAnchors, true, fun _ => true⟩

/-- An environment whose metadata fetches always succeed, in live mode, with
the publish sink rejecting every submission. -/
def cfgLiveFail : RunConfig :=
  ⟨fun _ => FetchResult.page metaSample, true, fun _ => false⟩

/-- An environment whose metadata fetches always succeed, in live mode, with
the publish sink accepting every submission. -/
def cfgLiveOk : RunConfig :=
  ⟨fun _ => FetchResult.page metaSample, true, fun _ => true⟩

/-- An environment whose metadata fetches always succeed, in dry-run mode
(`POST_TO_BLUESKY` unset). -/
def cfgDry : RunConfig :=
  ⟨fun _ => FetchResult.page metaSample, false, fun _ => true⟩

/-- A release entry dated exactly at the cutoff. -/
def eRel : Entry :=
  ⟨"https://www.beehive.govt.nz/release/big-news", "g-rel", "Big news", startTime⟩

/-- The post `parse_entry` produces for `eRel`. -/
def postRel : Post :=
  ⟨PostType.RELEASE, "g-rel", "https://www.beehive.govt.nz/release/big-news", "Big news"⟩

/-- An unclassifiable entry (no category segment in the URL). -/
def eNode : Entry :=
  ⟨"https://www.beehive.govt.nz/node/124001", "g-node", "Unknown", startTime⟩

/-- A speech entry dated before the cutoff. -/
def eOld : Entry :=
  ⟨"https://www.beehive.govt.nz/speech/old-speech", "g-old", "Old speech", startTime - 1⟩

/-- Two further recent entries, used as concrete feed tails. -/
def eLate1 : Entry :=
  ⟨"https://www.beehive.govt.nz/speech/late-1", "g-late-1", "Late 1", startTime + 10⟩

def eLate2 : Entry :=
  ⟨"https://www.beehive.govt.nz/feature/late-2", "g-late-2", "Late 2", startTime + 20⟩

/-- A concrete feed: three leading entries (always sliced off) and a tail. -/
def entriesC7 : List Entry :=
  [eLate1, eLate1, eLate1, eRel]

def entriesC9 : List Entry :=
  [eRel, eRel, eRel, eOld, eLate1, eLate2]

/- ## General lemmas about the embedded run -/

theorem guidInRecords_false (g : String) (history : List HistoryRecord) :
    guidInRecords g history = false := by
  simp [guidInRecords, pyEqStrRecord]

theorem contains_false_of_not_mem {guids : List String} {g : String}
    (h : g ∉ guids) : guids.contains g = false := by
  simp [List.contains, h]

/-- An entry whose guid is in the snapshot is dropped without any side
effect. -/
theorem processEntry_skip_of_mem (cfg : RunConfig) (guids : List String)
    (st : RunState) (e : Entry) (h : e.guid ∈ guids) :
    processEntry cfg guids st e = RunResult.ok st := by
  unfold processEntry
  by_cases hd : e.published < startTime
  · simp [hd]
  · simp [hd, List.elem_eq_mem, h, List.contains]

/-- A loop over entries that are all in the guid snapshot does nothing. -/
theorem runLoop_skip_all (cfg : RunConfig) (guids : List String) (st : RunState) :
    ∀ l : List Entry, (∀ e ∈ l, e.guid ∈ guids) → runLoop cfg guids st l = RunResult.ok st := by
  intro l
  induction l with
  | nil => intro _; rfl
  | cons e es ih =>
    intro h
    rw [runLoop, processEntry_skip_of_mem cfg guids st e (h e (List.mem_cons_self e es))]
    exact ih fun e' he' => h e' (List.mem_cons_of_mem e he')

@[simp] theorem classifiedGuids_append (l1 l2 : List Event) :
    classifiedGuids (l1 ++ l2) = classifiedGuids l1 ++ classifiedGuids l2 := by
  simp [classifiedGuids]

/-- C1: the minister-list formatter returns `""` for 0 names, `" from {name}"`
for 1 name, `" from {name1} and {name2}"` for 2 names, and for 3 or more names
`" from "` followed by all but the last name joined by `", "`, then `" and "`
plus the last name; in particular `["Alice","Bob","Cara"]` yields
`" from Alice, Bob and Cara"`. -/
theorem C1_format_minister_text (a b c : String) (rest : List String) :
    format_minister_text [] = "" ∧
    format_minister_text [a] = " from " ++ a ∧
    format_minister_text [a, b] = " from " ++ a ++ " and " ++ b ∧
    format_minister_text (a :: b :: c :: rest) =
      " from " ++ pyJoin ", " ((a :: b :: c :: rest).dropLast)
        ++ " and " ++ (a :: b :: c :: rest).getLastD "" ∧
    format_minister_text ["Alice", "Bob", "Cara"] = " from Alice, Bob and Cara" := by
  refine ⟨rfl, ?_, ?_, ?_, by decide⟩
  · simp [format_minister_text]
  · simp [format_minister_text, pyJoin, String.append_assoc]
  · simp [format_minister_text, String.append_assoc]

/-- C2: for every category and minister list, the composed post body is exactly
`"A new "`, then `"joint "` iff more than one minister, then the category word
(`release`/`speech`/`feature`), then `" is available"`, then the minister-list
clause, then a single terminating period; in particular a release with no
ministers gives `"A new release is available."` and a speech with ministers
`["J. Smith","A. Lee"]` gives
`"A new joint speech is available from J. Smith and A. Lee."`. -/
theorem C2_compose_body (ty : PostType) (ms : List String) :
    compose_body ty ms =
      "A new " ++ (if ms.length > 1 then "joint " else "") ++ categoryWord ty
        ++ " is available" ++ format_minister_text ms ++ "." ∧
    compose_body PostType.RELEASE [] = "A new release is available." ∧
    compose_body PostType.SPEECH ["J. Smith", "A. Lee"]
      = "A new joint speech is available from J. Smith and A. Lee." := by
  refine ⟨?_, by decide, by decide⟩
  cases ty <;> cases ms <;>
    simp [compose_body, categoryWord, format_minister_text, String.append_assoc]

/-- C3: an entry whose guid is already in the loaded history is dropped before
classification, metadata fetch, or publish; consequently a run over a feed
whose every entry guid is already in the history file produces no side effect
at all (empty event trace) and leaves the history unchanged. -/
theorem C3_history_filter_idempotent (cfg : RunConfig) (guids : List String)
    (st : RunState) (e : Entry) (hmem : e.guid ∈ guids) :
    processEntry cfg guids st e = RunResult.ok st ∧
    ∀ (entries : List Entry) (hist : List HistoryRecord),
      (∀ e' ∈ entries, e'.guid ∈ retrieve_published_guids hist) →
      runMain cfg entries (some hist) = RunResult.ok ⟨hist, []⟩ := by
  refine ⟨processEntry_skip_of_mem cfg guids st e hmem, ?_⟩
  intro entries hist hall
  unfold runMain
  exact runLoop_skip_all cfg _ _ _ fun e' he' =>
    hall e' (List.mem_of_mem_drop (List.mem_reverse.mp he'))

/-- C3 witness: a concrete history-listed entry is dropped with no side
effect, and a concrete feed whose every guid is in the history file runs to
completion with no events and an unchanged history. -/
theorem C3_history_filter_idempotent_witness :
    processEntry cfgHttpFail ["g-rel"] ⟨[], []⟩ eRel = RunResult.ok ⟨[], []⟩ ∧
    runMain cfgHttpFail [eRel, eRel, eRel, eRel, eOld]
        (some [⟨"g-rel", "u1"⟩, ⟨"g-old", "u2"⟩]) =
      RunResult.ok ⟨[⟨"g-rel", "u1"⟩, ⟨"g-old", "u2"⟩], []⟩ :=
  ⟨(C3_history_filter_idempotent cfgHttpFail ["g-rel"] ⟨[], []⟩ eRel
      (by decide)).1,
   (C3_history_filter_idempotent cfgHttpFail ["g-rel"] ⟨[], []⟩ eRel
      (by decide)).2 [eRel, eRel, eRel, eRel, eOld]
     [⟨"g-rel", "u1"⟩, ⟨"g-old", "u2"⟩] (by decide)⟩

/-- C8: the embed title is the page-extracted title when present, else the
feed entry's own title; the embed description is the page-extracted
description when present, else the literal `"Read more"`. -/
theorem C8_embed_fallbacks (t d postTitle : String) :
    embedTitle (some t) postTitle = t ∧
    embedTitle none postTitle = postTitle ∧
    embedDescription (some d) = d ∧
    embedDescription none = "Read more" :=
  ⟨rfl, rfl, rfl, rfl⟩

/-- C5 counterexample: on a URL containing both `/feature/` and `/release/`,
the code classifies RELEASE, while the claim's rule — last match among the
checks in its listed order `/release/`, `/speech/`, `/feature/` — gives
FEATURE. -/
theorem C5_counterexample :
    (parse_entry ⟨"https://www.beehive.govt.nz/feature/a/release/b", "g", "t",
        startTime⟩).map Post.type = some PostType.RELEASE ∧
    classifyListedOrder "https://www.beehive.govt.nz/feature/a/release/b"
      = some PostType.FEATURE ∧
    (parse_entry ⟨"https://www.beehive.govt.nz/feature/a/release/b", "g", "t",
        startTime⟩).map Post.type
      ≠ classifyListedOrder "https://www.beehive.govt.nz/feature/a/release/b" := by
  refine ⟨by decide, by decide, by decide⟩

/-- C5 (amended): classification tests whether the URL contains `/feature/`,
`/release/`, `/speech/` — sequentially, in that source order — with the last
matching check winning, so the effective priority is `/speech/` over
`/release/` over `/feature/`; a classified entry keeps its guid, url and
stripped title; and when no check matches, the entry is skipped after the
diagnostic, with no crash and no other side effect. -/
theorem C5_classifier_amended (cfg : RunConfig) (guids : List String)
    (st : RunState) (e : Entry) :
    (parse_entry e).map Post.type =
      (if containsSub e.link "/speech/" then some PostType.SPEECH
       else if containsSub e.link "/release/" then some PostType.RELEASE
       else if containsSub e.link "/feature/" then some PostType.FEATURE
       else none) ∧
    (∀ p, parse_entry e = some p →
      p.guid = e.guid ∧ p.url = e.link ∧ p.title = pyStrip e.title) ∧
    (parse_entry e = none → ¬ e.published < startTime → e.guid ∉ guids →
      processEntry cfg guids st e =
        RunResult.ok ⟨st.history, st.events ++ [Event.classify e.guid]⟩) := by
  refine ⟨?_, ?_, ?_⟩
  · cases hs : containsSub e.link "/speech/" <;>
      cases hr : containsSub e.link "/release/" <;>
        cases hf : containsSub e.link "/feature/" <;>
          simp [parse_entry, hs, hr, hf]
  · intro p hp
    cases hs : containsSub e.link "/speech/" <;>
      cases hr : containsSub e.link "/release/" <;>
        cases hf : containsSub e.link "/feature/" <;>
          simp [parse_entry, hs, hr, hf] at hp <;>
            simp [← hp]
  · intro hnone hdate hdup
    simp [processEntry, hdate, hnone, hdup]

/-- C5 witness: the amended theorem applied to a concrete unclassifiable
entry. -/
theorem C5_classifier_amended_witness :
    processEntry cfgLiveOk [] ⟨[], []⟩ eNode =
      RunResult.ok ⟨[], [Event.classify "g-node"]⟩ :=
  (C5_classifier_amended cfgLiveOk [] ⟨[], []⟩ eNode).2.2 (by decide) (by decide)
    (by decide)

/-- Characterization of repeated `save_feed_history`, threading the in-memory
history and the file contents exactly as a run does. -/
theorem saveFold_spec (posts : List Post) (h0 : List HistoryRecord)
    (f0 : Option (List HistoryRecord)) :
    posts.foldl
        (fun acc p =>
          let r := save_feed_history acc.1 p
          (r.1, some r.2))
        (h0, f0)
      = (h0 ++ posts.map toRecord,
         if posts.isEmpty then f0 else some (h0 ++ posts.map toRecord)) := by
  induction posts generalizing h0 f0 with
  | nil => simp
  | cons p ps ih =>
    cases ps with
    | nil => simp [save_feed_history, toRecord]
    | cons q qs =>
      rw [List.foldl_cons, ih]
      simp [save_feed_history, toRecord]

/-- C6: loading with no history file present yields the empty list (not an
error); appending N posts with pairwise-distinct guids one at a time, starting
from an empty history, and then reloading, yields exactly those N guid/url
records, with no duplicate records, and set-equal (same membership) to the
expected records. -/
theorem C6_history_roundtrip (posts : List Post)
    (hdist : (posts.map Post.guid).Nodup) :
    load_feed_history none = [] ∧
    load_feed_history (appendRun posts).2 = posts.map toRecord ∧
    (load_feed_history (appendRun posts).2).Nodup ∧
    (∀ r : HistoryRecord,
      r ∈ load_feed_history (appendRun posts).2 ↔ r ∈ posts.map toRecord) := by
  have hfile : load_feed_history (appendRun posts).2 = posts.map toRecord := by
    rw [appendRun, saveFold_spec]
    cases posts with
    | nil => rfl
    | cons p ps => simp [load_feed_history]
  refine ⟨rfl, hfile, ?_, fun r => by rw [hfile]⟩
  rw [hfile]
  have hmap : (posts.map toRecord).map HistoryRecord.guid = posts.map Post.guid := by
    simp [toRecord, Function.comp]
  exact List.Nodup.of_map HistoryRecord.guid (hmap ▸ hdist)

/-- C6 witness: two posts with distinct guids round-trip to exactly their two
records. -/
theorem C6_history_roundtrip_witness :
    load_feed_history (appendRun [⟨PostType.RELEASE, "g1", "u1", "t1"⟩,
        ⟨PostType.SPEECH, "g2", "u2", "t2"⟩]).2
      = [⟨"g1", "u1"⟩, ⟨"g2", "u2"⟩] :=
  (C6_history_roundtrip [⟨PostType.RELEASE, "g1", "u1", "t1"⟩,
      ⟨PostType.SPEECH, "g2", "u2", "t2"⟩] (by decide)).2.1

/-- C7 evidence (code bug): when an entry's metadata fetch returns non-success
status, `fetch_post_metadata` returns the Python value `False`, `__main__`
subscripts it (`metadata['ministers']`), and the uncaught `TypeError` aborts
the whole run (nonzero exit) instead of skipping just that entry; likewise a
page without the required meta anchors raises an uncaught `AttributeError`
inside `fetch_post_metadata`. -/
theorem C7_metadata_failure_aborts_run :
    runMain cfgHttpFail entriesC7 (some []) =
      RunResult.crashed PyExc.typeError
        ⟨[], [Event.classify "g-rel",
              Event.fetchMeta "https://www.beehive.govt.nz/release/big-news"]⟩ ∧
    runMain cfgNoAnchors entriesC7 (some []) =
      RunResult.crashed PyExc.attributeError
        ⟨[], [Event.classify "g-rel",
              Event.fetchMeta "https://www.beehive.govt.nz/release/big-news"]⟩ := by
  refine ⟨by decide, by decide⟩

/-- C4: in live mode, when the publish sink rejects the submission the entry
is not appended to the history (history unchanged) and the loop continues with
the next entries; when the sink accepts, the history append happens in the
same step, before the next entry is examined. -/
theorem C4_publish_outcome_history (cfg : RunConfig) (guids : List String)
    (st : RunState) (e : Entry) (es : List Entry) (post : Post)
    (meta : PageMetadata)
    (hlive : cfg.postToBluesky = true)
    (hdate : ¬ e.published < startTime) (hdup : e.guid ∉ guids)
    (hparse : parse_entry e = some post)
    (hfetch : cfg.fetch post.url = FetchResult.page meta) :
    (cfg.publishOk post.url = false →
      processEntry cfg guids st e =
        RunResult.ok ⟨st.history,
          st.events ++ [Event.classify e.guid, Event.fetchMeta post.url,
                        Event.publishAttempt post.url]⟩ ∧
      runLoop cfg guids st (e :: es) =
        runLoop cfg guids
          ⟨st.history,
           st.events ++ [Event.classify e.guid, Event.fetchMeta post.url,
                         Event.publishAttempt post.url]⟩ es) ∧
    (cfg.publishOk post.url = true →
      processEntry cfg guids st e =
        RunResult.ok ⟨st.history ++ [⟨post.guid, post.url⟩],
          st.events ++ [Event.classify e.guid, Event.fetchMeta post.url,
                        Event.publishAttempt post.url, Event.publishSuccess post.url,
                        Event.historyAppend post.guid]⟩ ∧
      runLoop cfg guids st (e :: es) =
        runLoop cfg guids
          ⟨st.history ++ [⟨post.guid, post.url⟩],
           st.events ++ [Event.classify e.guid, Event.fetchMeta post.url,
                         Event.publishAttempt post.url, Event.publishSuccess post.url,
                         Event.historyAppend post.guid]⟩ es) := by
  constructor
  · intro hpub
    have hpe : processEntry cfg guids st e =
        RunResult.ok ⟨st.history,
          st.events ++ [Event.classify e.guid, Event.fetchMeta post.url,
                        Event.publishAttempt post.url]⟩ := by
      simp [processEntry, hdate, hdup, hparse, hfetch, guidInRecords_false, hlive,
        hpub]
    exact ⟨hpe, by rw [runLoop, hpe]⟩
  · intro hpub
    have hpe : processEntry cfg guids st e =
        RunResult.ok ⟨st.history ++ [⟨post.guid, post.url⟩],
          st.events ++ [Event.classify e.guid, Event.fetchMeta post.url,
                        Event.publishAttempt post.url, Event.publishSuccess post.url,
                        Event.historyAppend post.guid]⟩ := by
      simp [processEntry, hdate, hdup, hparse, hfetch, guidInRecords_false, hlive,
        hpub, save_feed_history]
    exact ⟨hpe, by rw [runLoop, hpe]⟩

/-- C4 witness: the theorem applied to a concrete sink that rejects, and a
concrete sink that accepts. -/
theorem C4_publish_outcome_history_witness :
    processEntry cfgLiveFail [] ⟨[], []⟩ eRel =
      RunResult.ok ⟨[],
        [Event.classify "g-rel",
         Event.fetchMeta "https://www.beehive.govt.nz/release/big-news",
         Event.publishAttempt "https://www.beehive.govt.nz/release/big-news"]⟩ ∧
    processEntry cfgLiveOk [] ⟨[], []⟩ eRel =
      RunResult.ok
        ⟨[⟨"g-rel", "https://www.beehive.govt.nz/release/big-news"⟩],
         [Event.classify "g-rel",
          Event.fetchMeta "https://www.beehive.govt.nz/release/big-news",
          Event.publishAttempt "https://www.beehive.govt.nz/release/big-news",
          Event.publishSuccess "https://www.beehive.govt.nz/release/big-news",
          Event.historyAppend "g-rel"]⟩ :=
  ⟨((C4_publish_outcome_history cfgLiveFail [] ⟨[], []⟩ eRel [] postRel metaSample
      rfl (by decide) (by decide) (by decide) rfl).1 rfl).1,
   ((C4_publish_outcome_history cfgLiveOk [] ⟨[], []⟩ eRel [] postRel metaSample
      rfl (by decide) (by decide) (by decide) rfl).2 rfl).1⟩

@[simp] theorem classifiedGuids_nil : classifiedGuids [] = [] := rfl

@[simp] theorem classifiedGuids_classify (g : String) (rest : List Event) :
    classifiedGuids (Event.classify g :: rest) = g :: classifiedGuids rest := rfl

@[simp] theorem classifiedGuids_fetchMeta (u : String) (rest : List Event) :
    classifiedGuids (Event.fetchMeta u :: rest) = classifiedGuids rest := rfl

@[simp] theorem classifiedGuids_publishAttempt (u : String) (rest : List Event) :
    classifiedGuids (Event.publishAttempt u :: rest) = classifiedGuids rest := rfl

@[simp] theorem classifiedGuids_publishSuccess (u : String) (rest : List Event) :
    classifiedGuids (Event.publishSuccess u :: rest) = classifiedGuids rest := rfl

@[simp] theorem classifiedGuids_historyAppend (g : String) (rest : List Event) :
    classifiedGuids (Event.historyAppend g :: rest) = classifiedGuids rest := rfl

@[simp] theorem classifiedGuids_dryRunPrint (u : String) (rest : List Event) :
    classifiedGuids (Event.dryRunPrint u :: rest) = classifiedGuids rest := rfl

/-- A classified post keeps the entry's guid and link. -/
theorem parse_entry_guid {e : Entry} {p : Post} (hp : parse_entry e = some p) :
    p.guid = e.guid ∧ p.url = e.link := by
  cases hs : containsSub e.link "/speech/" <;>
    cases hr : containsSub e.link "/release/" <;>
      cases hf : containsSub e.link "/feature/" <;>
        simp [parse_entry, hs, hr, hf] at hp <;>
          simp [← hp]

/-- When every metadata fetch succeeds, a loop step completes normally and
calls `parse_entry` exactly when the entry passes the date and guid
filters. -/
theorem processEntry_classified (cfg : RunConfig) (guids : List String)
    (st : RunState) (e : Entry)
    (hfetch : ∀ u, ∃ m, cfg.fetch u = FetchResult.page m) :
    ∃ st', processEntry cfg guids st e = RunResult.ok st' ∧
      classifiedGuids st'.events =
        classifiedGuids st.events ++
          (if passesFilters guids e then [e.guid] else []) := by
  by_cases hd : e.published < startTime
  · have hle : ¬ startTime ≤ e.published := Int.not_le.mpr hd
    refine ⟨st, by simp [processEntry, hd], by simp [passesFilters, hle]⟩
  · by_cases hm : e.guid ∈ guids
    · have hpass : passesFilters guids e = false := by
        simp [passesFilters, List.contains, hm]
      exact ⟨st, processEntry_skip_of_mem cfg guids st e hm, by simp [hpass]⟩
    · have hle : startTime ≤ e.published := Int.not_lt.mp hd
      have hpass : passesFilters guids e = true := by
        simp [passesFilters, List.contains, hm, hle]
      cases hp : parse_entry e with
      | none =>
        refine ⟨⟨st.history, st.events ++ [Event.classify e.guid]⟩, ?_, ?_⟩
        · simp [processEntry, hd, hm, hp]
        · simp [hpass]
      | some post =>
        obtain ⟨m, hf⟩ := hfetch post.url
        by_cases hb : cfg.postToBluesky = true
        · by_cases hpub : cfg.publishOk post.url = true
          · refine ⟨⟨st.history ++ [⟨post.guid, post.url⟩],
              st.events ++ [Event.classify e.guid, Event.fetchMeta post.url,
                Event.publishAttempt post.url, Event.publishSuccess post.url,
                Event.historyAppend post.guid]⟩, ?_, ?_⟩
            · simp [processEntry, hd, hm, hp, hf, guidInRecords_false, hb, hpub,
                save_feed_history]
            · simp [hpass]
          · have hpub' : cfg.publishOk post.url = false := by simpa using hpub
            refine ⟨⟨st.history,
              st.events ++ [Event.classify e.guid, Event.fetchMeta post.url,
                Event.publishAttempt post.url]⟩, ?_, ?_⟩
            · simp [processEntry, hd, hm, hp, hf, guidInRecords_false, hb, hpub']
            · simp [hpass]
        · have hb' : cfg.postToBluesky = false := by simpa using hb
          refine ⟨⟨st.history ++ [⟨post.guid, post.url⟩],
            st.events ++ [Event.classify e.guid, Event.fetchMeta post.url,
              Event.dryRunPrint post.url, Event.historyAppend post.guid]⟩, ?_, ?_⟩
          · simp [processEntry, hd, hm, hp, hf, guidInRecords_false, hb',
              save_feed_history]
          · simp [hpass]

/-- When every metadata fetch succeeds, the loop completes normally and the
classified guids are exactly the filter-surviving entries, in loop order. -/
theorem runLoop_classified (cfg : RunConfig) (guids : List String)
    (hfetch : ∀ u, ∃ m, cfg.fetch u = FetchResult.page m) :
    ∀ (l : List Entry) (st : RunState),
      ∃ st', runLoop cfg guids st l = RunResult.ok st' ∧
        classifiedGuids st'.events =
          classifiedGuids st.events ++
            (l.filter (passesFilters guids)).map Entry.guid := by
  intro l
  induction l with
  | nil => intro st; exact ⟨st, rfl, by simp⟩
  | cons e es ih =>
    intro st
    obtain ⟨st1, h1, hc1⟩ := processEntry_classified cfg guids st e hfetch
    obtain ⟨st2, h2, hc2⟩ := ih st1
    refine ⟨st2, ?_, ?_⟩
    · rw [runLoop, h1]; exact h2
    · rw [hc2, hc1]
      by_cases hp : passesFilters guids e
      · simp [hp, List.filter_cons, List.append_assoc]
      · simp [hp, List.filter_cons]

/-- C9: when metadata fetches succeed, the run completes normally and the
entries handed to `parse_entry` are exactly the feed entries after the first
three, in reverse feed order, minus those whose published instant is strictly
before `START_TIME` and those whose guid is already in the loaded history. -/
theorem C9_loop_order (cfg : RunConfig) (entries : List Entry)
    (file : Option (List HistoryRecord))
    (hfetch : ∀ u, ∃ m, cfg.fetch u = FetchResult.page m) :
    ∃ st, runMain cfg entries file = RunResult.ok st ∧
      classifiedGuids st.events =
        (((entries.drop 3).reverse).filter
            (passesFilters (retrieve_published_guids (load_feed_history file)))).map
          Entry.guid := by
  obtain ⟨st, h1, h2⟩ :=
    runLoop_classified cfg (retrieve_published_guids (load_feed_history file)) hfetch
      ((entries.drop 3).reverse) ⟨load_feed_history file, []⟩
  exact ⟨st, h1, by simpa using h2⟩

/-- C9 witness: on a concrete six-entry feed with no history file, the three
leading entries are sliced off, the too-old entry is skipped, and the two
surviving entries are classified last-first. -/
theorem C9_loop_order_witness :
    ∃ st, runMain cfgDry entriesC9 none = RunResult.ok st ∧
      classifiedGuids st.events = ["g-late-2", "g-late-1"] := by
  obtain ⟨st, h1, h2⟩ := C9_loop_order cfgDry entriesC9 none (fun _ => ⟨metaSample, rfl⟩)
  exact ⟨st, h1, by rw [h2]; decide⟩

/-- C10: in dry-run mode every entry that reaches the publisher is appended to
the history exactly as after a successful live publish (same
guid/url record, appended at the same point), so its guid lands in the guid
snapshot of any subsequent run, which then skips the entry entirely. -/
theorem C10_dry_run_marks_published (cfg : RunConfig) (guids : List String)
    (st : RunState) (e : Entry) (post : Post) (meta : PageMetadata)
    (hdry : cfg.postToBluesky = false)
    (hdate : ¬ e.published < startTime) (hdup : e.guid ∉ guids)
    (hparse : parse_entry e = some post)
    (hfetch : cfg.fetch post.url = FetchResult.page meta) :
    processEntry cfg guids st e =
      RunResult.ok ⟨st.history ++ [⟨post.guid, post.url⟩],
        st.events ++ [Event.classify e.guid, Event.fetchMeta post.url,
                      Event.dryRunPrint post.url, Event.historyAppend post.guid]⟩ ∧
    (∀ cfg' : RunConfig, cfg'.postToBluesky = true →
      cfg'.fetch post.url = FetchResult.page meta →
      cfg'.publishOk post.url = true →
      processEntry cfg' guids st e =
        RunResult.ok ⟨st.history ++ [⟨post.guid, post.url⟩],
          st.events ++ [Event.classify e.guid, Event.fetchMeta post.url,
                        Event.publishAttempt post.url, Event.publishSuccess post.url,
                        Event.historyAppend post.guid]⟩) ∧
    (∀ (cfg₂ : RunConfig) (st₂ : RunState),
      processEntry cfg₂
          (retrieve_published_guids (st.history ++ [⟨post.guid, post.url⟩])) st₂ e =
        RunResult.ok st₂) := by
  refine ⟨?_, ?_, ?_⟩
  · simp [processEntry, hdate, hdup, hparse, hfetch, guidInRecords_false, hdry,
      save_feed_history]
  · intro cfg' hlive hfetch' hpub
    simp [processEntry, hdate, hdup, hparse, hfetch', guidInRecords_false, hlive,
      hpub, save_feed_history]
  · intro cfg₂ st₂
    apply processEntry_skip_of_mem
    have hg : post.guid = e.guid := (parse_entry_guid hparse).1
    simp [retrieve_published_guids, hg]

/-- C10 witness: the theorem applied in a concrete dry-run environment, plus
the consequent skip when the same entry is seen again with the appended
history loaded. -/
theorem C10_dry_run_marks_published_witness :
    processEntry cfgDry [] ⟨[], []⟩ eRel =
      RunResult.ok
        ⟨[⟨"g-rel", "https://www.beehive.govt.nz/release/big-news"⟩],
         [Event.classify "g-rel",
          Event.fetchMeta "https://www.beehive.govt.nz/release/big-news",
          Event.dryRunPrint "https://www.beehive.govt.nz/release/big-news",
          Event.historyAppend "g-rel"]⟩ ∧
    processEntry cfgLiveOk
        (retrieve_published_guids
          [⟨"g-rel", "https://www.beehive.govt.nz/release/big-news"⟩])
        ⟨[⟨"g-rel", "https://www.beehive.govt.nz/release/big-news"⟩], []⟩ eRel =
      RunResult.ok
        ⟨[⟨"g-rel", "https://www.beehive.govt.nz/release/big-news"⟩], []⟩ :=
  ⟨(C10_dry_run_marks_published cfgDry [] ⟨[], []⟩ eRel postRel metaSample rfl
      (by decide) (by decide) (by decide) rfl).1,
   (C10_dry_run_marks_published cfgDry [] ⟨[], []⟩ eRel postRel metaSample rfl
      (by decide) (by decide) (by decide) rfl).2.2 cfgLiveOk
     ⟨[⟨"g-rel", "https://www.beehive.govt.nz/release/big-news"⟩], []⟩⟩
